import Mathlib

/-!
Shallow embedding of the nnU-Net normalization-scheme excerpt:

* `map_channel_name_to_normalization.py` — the resolver
  `get_normalization_scheme`, its static table
  `channel_name_to_normalization_mapping`, the dynamic CT-window pattern
  `ct_to_(-?\d+)_(-?\d+)`, the synthesized class name, and the process-wide
  cache `_dynamic_normalization_classes` (modelled as explicit state).
* `custom_normalization_schemes.py` — the fixed-bound CT-window strategies
  `CTWindowNeg15To115Normalization` and `CTWindowNeg100To200Normalization`,
  together with the dynamically synthesized run method from
  `create_run_method`.

Numeric array elements are modelled as rationals; arrays carry an identity
tag and a dtype so that the in-place / copy behaviour of the numpy code can
be stated.
-/

namespace NNUNet

/-- Decimal digit character: the character of code 48 + n (for n < 10). -/
def digitChar (n : Nat) : Char := Char.ofNat (48 + n)

/-- Decimal digits of a natural number, most significant first, prepended
to an accumulator.  This is the digit sequence Python renders for a
non-negative integer inside an f-string. -/
def natToDigits (n : Nat) (acc : List Char) : List Char :=
  if _h : n < 10 then digitChar n :: acc
  else natToDigits (n / 10) (digitChar (n % 10) :: acc)
termination_by n
decreasing_by exact Nat.div_lt_self (by omega) (by omega)

/-- Python str(int): a minus sign for negatives followed by the decimal
digits of the absolute value.  Used by the f-string in the ValueError
message of get_normalization_scheme. -/
def intRepr (i : Int) : String :=
  String.mk ((if i < 0 then ['-'] else []) ++ natToDigits i.natAbs [])

/-- ASCII case folding.  Python's str.casefold agrees with ASCII
lower-casing on the ASCII channel names this module handles. -/
def casefold (s : String) : String := String.mk (s.data.map Char.toLower)

/-- Is this character an ASCII decimal digit (the regex class \d)? -/
def isDigitCh (c : Char) : Bool := 48 ≤ c.toNat && c.toNat ≤ 57

/-- Split a character list at every occurrence of a separator character
(Python str.split semantics: n separators yield n+1 pieces). -/
def splitOnChar (sep : Char) : List Char → List (List Char)
  | [] => [[]]
  | c :: rest =>
    match splitOnChar sep rest with
    | [] => [[]]
    | h :: t => if c = sep then [] :: h :: t else (c :: h) :: t

/-- Does the character list match the regex -?\d+ (an optional minus sign
followed by at least one digit)? -/
def isSignedIntChars (l : List Char) : Bool :=
  match l with
  | '-' :: rest => !rest.isEmpty && rest.all isDigitCh
  | _ => !l.isEmpty && l.all isDigitCh

/-- Numeric value of a digit-character list (what Python int() returns on a
digit string). -/
def digitsVal (l : List Char) : Nat :=
  l.foldl (fun a c => a * 10 + (c.toNat - 48)) 0

/-- Python int() on a string matching -?\d+. -/
def parseIntChars (l : List Char) : Int :=
  match l with
  | '-' :: rest => -(digitsVal rest : Int)
  | _ => (digitsVal l : Int)

/-- re.fullmatch of the pattern ct_to_(-?\d+)_(-?\d+) against a character
list, returning the two captured integers.  The whole input must consist of
the literal prefix followed by exactly two signed integer groups separated
by one underscore (a \d+ group can never contain an underscore, so the
split below is exactly the regex's unique decomposition). -/
def matchCtWindowChars (s : List Char) : Option (Int × Int) :=
  match s with
  | 'c' :: 't' :: '_' :: 't' :: 'o' :: '_' :: rest =>
    match splitOnChar '_' rest with
    | [a, b] =>
      if isSignedIntChars a && isSignedIntChars b then
        some (parseIntChars a, parseIntChars b)
      else none
    | _ => none
  | _ => none

/-- re.fullmatch of ct_to_(-?\d+)_(-?\d+) against a string. -/
def matchCtWindow (s : String) : Option (Int × Int) := matchCtWindowChars s.data

/-- The normalization strategy types the resolver can return.  The five
named constructors are the statically known classes from
default_normalization_schemes; `dynamic stamp lower upper` is a class
synthesized by get_normalization_scheme via type(...), where `stamp` is a
freshness tag modelling Python object identity (two separately synthesized
classes are distinct objects even for equal bounds). -/
inductive NormScheme where
  | CTNormalization
  | NoNormalization
  | ZScoreNormalization
  | RescaleTo01Normalization
  | RGBTo01Normalization
  | dynamic (stamp : Nat) (lower upper : Int)
deriving DecidableEq, Repr

/-- The static dict channel_name_to_normalization_mapping, modelled as its
lookup (dict.get) function. -/
def channel_name_to_normalization_mapping (key : String) : Option NormScheme :=
  if key = "ct" then some NormScheme.CTNormalization
  else if key = "nonorm" then some NormScheme.NoNormalization
  else if key = "zscore" then some NormScheme.ZScoreNormalization
  else if key = "rescale_to_0_1" then some NormScheme.RescaleTo01Normalization
  else if key = "rgb_to_0_1" then some NormScheme.RGBTo01Normalization
  else none

/-- The sign-and-magnitude piece of the synthesized class name for one
bound: the f-string fragment given by Neg when the bound is negative,
followed by the decimal digits of abs(bound). -/
def encInt (i : Int) : List Char :=
  (if i < 0 then ['N', 'e', 'g'] else []) ++ natToDigits i.natAbs []

/-- The synthesized class name
f-string CTWindow..To..Normalization built by get_normalization_scheme;
this string is the key of the dynamic-class cache. -/
def class_name (lower upper : Int) : String :=
  "CTWindow" ++ String.mk (encInt lower) ++ "To" ++ String.mk (encInt upper) ++
    "Normalization"

/-- The process-wide mutable state of the resolver module: the cache
_dynamic_normalization_classes (an association list from synthesized class
name to class), plus a counter supplying freshness stamps for newly
synthesized classes (modelling that each type(...) call creates a new
object). -/
structure ResolverState where
  cache : List (String × NormScheme)
  nextStamp : Nat
deriving DecidableEq, Repr

/-- get_normalization_scheme(channel_name).  The result is the returned
strategy type (or the raised ValueError message) together with the
module-level state after the call. -/
def get_normalization_scheme (channel_name : String) (st : ResolverState) :
    Except String NormScheme × ResolverState :=
  match channel_name_to_normalization_mapping (casefold channel_name) with
  | some norm_scheme => (Except.ok norm_scheme, st)
  | none =>
    match matchCtWindow (casefold channel_name) with
    | some (lower, upper) =>
      if lower ≥ upper then
        (Except.error ("Invalid CT window: lower bound (" ++ intRepr lower ++
          ") greater than or equal to upper bound (" ++ intRepr upper ++ ")"), st)
      else
        match List.lookup (class_name lower upper) st.cache with
        | some cached => (Except.ok cached, st)
        | none =>
          (Except.ok (NormScheme.dynamic st.nextStamp lower upper),
           { cache := (class_name lower upper,
                       NormScheme.dynamic st.nextStamp lower upper) :: st.cache,
             nextStamp := st.nextStamp + 1 })
    | none => (Except.ok NormScheme.ZScoreNormalization, st)

/-- The intensityproperties mapping: foreground mean and std computed
offline. -/
structure IntensityProps where
  mean : ℚ
  std : ℚ
deriving DecidableEq, Repr

/-- The per-instance configuration a strategy object carries: its
intensityproperties (possibly None) and its target_dtype. -/
structure NormCfg where
  intensityproperties : Option IntensityProps
  target_dtype : String
deriving DecidableEq, Repr

/-- A numpy array: an object-identity tag, a dtype, and the element data.
Two arrays are the same Python object exactly when their id agrees. -/
structure NDArray where
  id : Nat
  dtype : String
  data : List ℚ
deriving DecidableEq, Repr

/-- Outcome of a run call: the returned array (or the assertion-failure
message), together with the caller's array after the call — equal to the
input array when the call did not mutate the caller's buffer. -/
structure RunResult where
  ret : Except String NDArray
  callerArray : NDArray
deriving Repr

/-- The literal 1e-8 appearing in max(std_intensity, 1e-8). -/
def eps : ℚ := 1 / 100000000

/-- The divisor actually used by every CT-window run method:
max(std_intensity, 1e-8). -/
def effectiveDivisor (std : ℚ) : ℚ := max std eps

/-- CTWindowNeg15To115Normalization.run.  astype(target_dtype, copy=False)
reuses the caller's buffer when the dtype already matches, in which case
np.clip(..., out=image), -= and /= mutate the caller's array in place and
the same object is returned; otherwise astype allocates a fresh array (a
new object id) and the caller's array is left untouched. -/
def CTWindowNeg15To115Normalization.run (cfg : NormCfg) (image : NDArray) : RunResult :=
  match cfg.intensityproperties with
  | none =>
    { ret := Except.error "CTNormalization requires intensity properties"
      callerArray := image }
  | some props =>
    let lower_bound : ℚ := -15
    let upper_bound : ℚ := 115
    let newData := image.data.map (fun v =>
      (min (max v lower_bound) upper_bound - props.mean) / effectiveDivisor props.std)
    if image.dtype = cfg.target_dtype then
      let out : NDArray := { id := image.id, dtype := image.dtype, data := newData }
      { ret := Except.ok out, callerArray := out }
    else
      let out : NDArray := { id := image.id + 1, dtype := cfg.target_dtype, data := newData }
      { ret := Except.ok out, callerArray := image }

/-- CTWindowNeg100To200Normalization.run: identical to the -15..115 variant
except for the bounds. -/
def CTWindowNeg100To200Normalization.run (cfg : NormCfg) (image : NDArray) : RunResult :=
  match cfg.intensityproperties with
  | none =>
    { ret := Except.error "CTNormalization requires intensity properties"
      callerArray := image }
  | some props =>
    let lower_bound : ℚ := -100
    let upper_bound : ℚ := 200
    let newData := image.data.map (fun v =>
      (min (max v lower_bound) upper_bound - props.mean) / effectiveDivisor props.std)
    if image.dtype = cfg.target_dtype then
      let out : NDArray := { id := image.id, dtype := image.dtype, data := newData }
      { ret := Except.ok out, callerArray := out }
    else
      let out : NDArray := { id := image.id + 1, dtype := cfg.target_dtype, data := newData }
      { ret := Except.ok out, callerArray := image }

/-- The run method produced by create_run_method(lower_bound, upper_bound)
for a dynamically synthesized class.  image.astype(target_dtype) always
copies (numpy astype defaults to copy=True) and image.clip(lo, hi) copies
again, so the returned array is always a fresh object and the caller's
array is never mutated. -/
def dynamic_run (lower_bound upper_bound : ℚ) (cfg : NormCfg) (image : NDArray) :
    RunResult :=
  match cfg.intensityproperties with
  | none =>
    { ret := Except.error "Custom range CT normalization requires intensity properties"
      callerArray := image }
  | some props =>
    let newData := image.data.map (fun v =>
      (min (max v lower_bound) upper_bound - props.mean) / effectiveDivisor props.std)
    let out : NDArray := { id := image.id + 1, dtype := cfg.target_dtype, data := newData }
    { ret := Except.ok out, callerArray := image }

/-- Well-formedness of the dynamic-class cache: every entry was registered
by the resolver, i.e. it is a synthesized class stored under the class name
generated from its own (valid) bounds. -/
def cacheWF (st : ResolverState) : Prop :=
  ∀ k s, (k, s) ∈ st.cache →
    ∃ stamp lower upper, s = NormScheme.dynamic stamp lower upper ∧
      k = class_name lower upper ∧ lower < upper

/-! ### Helper lemmas about the decimal digit rendering -/

theorem digitChar_toNat (n : Nat) (h : n < 10) : (digitChar n).toNat = 48 + n := by
  interval_cases n <;> decide

theorem natToDigits_append (n : Nat) (acc : List Char) :
    natToDigits n acc = natToDigits n [] ++ acc := by
  induction n using Nat.strong_induction_on generalizing acc with
  | _ n ih =>
    conv_lhs => rw [natToDigits]
    conv_rhs => rw [natToDigits]
    by_cases h : n < 10
    · simp [h]
    · have hlt : n / 10 < n := Nat.div_lt_self (by omega) (by omega)
      simp only [h, dite_false]
      rw [ih (n / 10) hlt (digitChar (n % 10) :: acc),
          ih (n / 10) hlt [digitChar (n % 10)]]
      simp

theorem natToDigits_ne_nil (n : Nat) (acc : List Char) : natToDigits n acc ≠ [] := by
  induction n using Nat.strong_induction_on generalizing acc with
  | _ n ih =>
    rw [natToDigits]
    by_cases h : n < 10
    · simp [h]
    · simp only [h, dite_false]
      exact ih (n / 10) (Nat.div_lt_self (by omega) (by omega)) _

theorem natToDigits_mem_digit (n : Nat) :
    ∀ c ∈ natToDigits n [], 48 ≤ c.toNat ∧ c.toNat ≤ 57 := by
  induction n using Nat.strong_induction_on with
  | _ n ih =>
    intro c hc
    rw [natToDigits] at hc
    by_cases h : n < 10
    · simp [h] at hc
      rw [hc, digitChar_toNat n h]
      omega
    · simp only [h, dite_false] at hc
      rw [natToDigits_append] at hc
      rcases List.mem_append.mp hc with h1 | h2
      · exact ih (n / 10) (Nat.div_lt_self (by omega) (by omega)) c h1
      · simp at h2
        rw [h2, digitChar_toNat (n % 10) (Nat.mod_lt n (by omega))]
        omega

theorem foldl_natToDigits (n : Nat) : ∀ a : Nat,
    (natToDigits n []).foldl (fun a c => a * 10 + (c.toNat - 48)) a =
      a * 10 ^ (natToDigits n []).length + n := by
  induction n using Nat.strong_induction_on with
  | _ n ih =>
    intro a
    rw [natToDigits]
    by_cases h : n < 10
    · simp [h, digitChar_toNat n h]
    · have hlt : n / 10 < n := Nat.div_lt_self (by omega) (by omega)
      simp only [h, dite_false]
      rw [natToDigits_append, List.foldl_append, ih (n / 10) hlt a]
      simp [digitChar_toNat (n % 10) (Nat.mod_lt n (by omega))]
      rw [pow_succ, ← mul_assoc]
      generalize a * 10 ^ (natToDigits (n / 10) []).length = m
      omega

theorem natToDigits_inj {n m : Nat} (h : natToDigits n [] = natToDigits m []) :
    n = m := by
  have h1 := foldl_natToDigits n 0
  have h2 := foldl_natToDigits m 0
  rw [h] at h1
  rw [h1] at h2
  omega

/-! ### Injectivity of the synthesized class name -/

theorem char_le_57_ne_T {c : Char} (h : c.toNat ≤ 57) : c ≠ 'T' := by
  intro heq
  rw [heq] at h
  revert h
  decide

theorem encInt_no_T {i : Int} : ∀ c ∈ encInt i, c ≠ 'T' := by
  intro c hc
  by_cases h : i < 0 <;> simp [encInt, h] at hc
  · rcases hc with h1 | h1 | h1 | h1
    · rw [h1]; decide
    · rw [h1]; decide
    · rw [h1]; decide
    · exact char_le_57_ne_T (natToDigits_mem_digit i.natAbs c h1).2
  · exact char_le_57_ne_T (natToDigits_mem_digit i.natAbs c hc).2

theorem split_at_T {xs1 xs2 ys1 ys2 : List Char}
    (h1 : ∀ c ∈ xs1, c ≠ 'T') (h2 : ∀ c ∈ xs2, c ≠ 'T')
    (h : xs1 ++ 'T' :: ys1 = xs2 ++ 'T' :: ys2) : xs1 = xs2 ∧ ys1 = ys2 := by
  induction xs1 generalizing xs2 with
  | nil =>
    cases xs2 with
    | nil => simpa using h
    | cons b t =>
      simp at h
      exact absurd h.1.symm (h2 b (by simp))
  | cons a t ih =>
    cases xs2 with
    | nil =>
      simp at h
      exact absurd h.1 (h1 a (by simp))
    | cons b t2 =>
      simp at h
      obtain ⟨hab, hrest⟩ := h
      obtain ⟨ht, hy⟩ :=
        ih (fun c hc => h1 c (by simp [hc])) (fun c hc => h2 c (by simp [hc])) hrest
      exact ⟨by rw [hab, ht], hy⟩

theorem encInt_inj {i j : Int} (h : encInt i = encInt j) : i = j := by
  by_cases hi : i < 0 <;> by_cases hj : j < 0 <;> simp [encInt, hi, hj] at h
  · have := natToDigits_inj h
    omega
  · exfalso
    cases hx : natToDigits j.natAbs [] with
    | nil => exact natToDigits_ne_nil _ _ hx
    | cons c rest =>
      rw [hx] at h
      simp at h
      have hc := natToDigits_mem_digit j.natAbs c (by rw [hx]; simp)
      rw [← h.1] at hc
      revert hc
      decide
  · exfalso
    cases hx : natToDigits i.natAbs [] with
    | nil => exact natToDigits_ne_nil _ _ hx
    | cons c rest =>
      rw [hx] at h
      simp at h
      have hc := natToDigits_mem_digit i.natAbs c (by rw [hx]; simp)
      rw [h.1] at hc
      revert hc
      decide
  · have := natToDigits_inj h
    omega

theorem string_data_mk (l : List Char) : (String.mk l).data = l := rfl

theorem string_data_append (s t : String) : (s ++ t).data = s.data ++ t.data := rfl

theorem class_name_inj {l1 u1 l2 u2 : Int}
    (h : class_name l1 u1 = class_name l2 u2) : l1 = l2 ∧ u1 = u2 := by
  have hd : (class_name l1 u1).data = (class_name l2 u2).data := by rw [h]
  simp only [class_name, string_data_append, string_data_mk] at hd
  simp only [List.cons_append, List.nil_append, List.append_assoc,
    List.cons.injEq, true_and] at hd
  have hsplit := split_at_T (fun c hc => encInt_no_T c hc)
    (fun c hc => encInt_no_T c hc) hd
  refine ⟨encInt_inj hsplit.1, ?_⟩
  have h2 := hsplit.2
  simp only [List.cons.injEq, true_and] at h2
  exact encInt_inj (List.append_cancel_right h2)

/-! ### Resolver unfolding lemmas -/

theorem table_none_of_ctwindow {s : String} {p : Int × Int}
    (h : matchCtWindow s = some p) :
    channel_name_to_normalization_mapping s = none := by
  unfold channel_name_to_normalization_mapping
  split_ifs with h1 h2 h3 h4 h5
  · rw [h1] at h
    rw [show matchCtWindow "ct" = none from by decide] at h
    exact Option.noConfusion h
  · rw [h2] at h
    rw [show matchCtWindow "nonorm" = none from by decide] at h
    exact Option.noConfusion h
  · rw [h3] at h
    rw [show matchCtWindow "zscore" = none from by decide] at h
    exact Option.noConfusion h
  · rw [h4] at h
    rw [show matchCtWindow "rescale_to_0_1" = none from by decide] at h
    exact Option.noConfusion h
  · rw [h5] at h
    rw [show matchCtWindow "rgb_to_0_1" = none from by decide] at h
    exact Option.noConfusion h
  · rfl

theorem resolve_ctwindow_invalid {name : String} {st : ResolverState}
    {lower upper : Int}
    (hm : matchCtWindow (casefold name) = some (lower, upper))
    (hge : lower ≥ upper) :
    get_normalization_scheme name st =
      (Except.error ("Invalid CT window: lower bound (" ++ intRepr lower ++
        ") greater than or equal to upper bound (" ++ intRepr upper ++ ")"), st) := by
  unfold get_normalization_scheme
  rw [table_none_of_ctwindow hm, hm]
  simp [hge]

theorem resolve_ctwindow_cached {name : String} {st : ResolverState}
    {lower upper : Int} {s : NormScheme}
    (hm : matchCtWindow (casefold name) = some (lower, upper))
    (hlt : lower < upper)
    (hc : List.lookup (class_name lower upper) st.cache = some s) :
    get_normalization_scheme name st = (Except.ok s, st) := by
  unfold get_normalization_scheme
  rw [table_none_of_ctwindow hm, hm]
  have hnge : ¬ lower ≥ upper := by omega
  simp [hnge, hc]

theorem resolve_ctwindow_fresh {name : String} {st : ResolverState}
    {lower upper : Int}
    (hm : matchCtWindow (casefold name) = some (lower, upper))
    (hlt : lower < upper)
    (hc : List.lookup (class_name lower upper) st.cache = none) :
    get_normalization_scheme name st =
      (Except.ok (NormScheme.dynamic st.nextStamp lower upper),
       { cache := (class_name lower upper,
                   NormScheme.dynamic st.nextStamp lower upper) :: st.cache,
         nextStamp := st.nextStamp + 1 }) := by
  unfold get_normalization_scheme
  rw [table_none_of_ctwindow hm, hm]
  have hnge : ¬ lower ≥ upper := by omega
  simp [hnge, hc]

theorem lookup_some_mem {k : String} {v : NormScheme}
    {l : List (String × NormScheme)} (h : List.lookup k l = some v) :
    (k, v) ∈ l := by
  induction l with
  | nil => simp at h
  | cons p t ih =>
    rcases p with ⟨k0, v0⟩
    rw [List.lookup_cons] at h
    by_cases hk : k == k0
    · simp [hk] at h
      have hkk : k = k0 := by simpa using hk
      rw [hkk, ← h]
      simp
    · simp [Bool.of_not_eq_true hk] at h
      exact List.mem_cons_of_mem _ (ih h)

theorem lookup_none_not_mem_keys {k : String}
    {l : List (String × NormScheme)} (h : List.lookup k l = none) :
    k ∉ l.map Prod.fst := by
  rw [List.lookup_eq_none_iff] at h
  intro hmem
  rcases List.mem_map.mp hmem with ⟨p, hp, hfst⟩
  have := h p hp
  rw [hfst] at this
  simp at this

/-! ### Claim theorems -/

/-- C1: for every pair (lower, upper) with lower < upper, resolving a
channel name whose case-folded form matches ct_to_{lower}_{upper} twice
returns the identical strategy type object both times: the first call
registers the synthesized type in the process-wide cache under the
canonical class name, the second call returns exactly that cached object
and leaves the state unchanged, and the cache keeps at most one entry per
class name (distinct keys). -/
theorem C1_resolve_twice_reference_stable
    (name : String) (st : ResolverState) (lower upper : Int)
    (hm : matchCtWindow (casefold name) = some (lower, upper))
    (hlt : lower < upper)
    (hnodup : (st.cache.map Prod.fst).Nodup) :
    ∃ s st₁,
      get_normalization_scheme name st = (Except.ok s, st₁) ∧
      get_normalization_scheme name st₁ = (Except.ok s, st₁) ∧
      List.lookup (class_name lower upper) st₁.cache = some s ∧
      (st₁.cache.map Prod.fst).Nodup := by
  cases hc : List.lookup (class_name lower upper) st.cache with
  | some cached =>
    exact ⟨cached, st, resolve_ctwindow_cached hm hlt hc,
      resolve_ctwindow_cached hm hlt hc, hc, hnodup⟩
  | none =>
    refine ⟨NormScheme.dynamic st.nextStamp lower upper,
      ⟨(class_name lower upper,
        NormScheme.dynamic st.nextStamp lower upper) :: st.cache,
       st.nextStamp + 1⟩,
      resolve_ctwindow_fresh hm hlt hc, ?_, by simp, ?_⟩
    · exact resolve_ctwindow_cached hm hlt (by simp)
    · simp only [List.map_cons, List.nodup_cons]
      exact ⟨lookup_none_not_mem_keys hc, hnodup⟩

/-- Witness for C1: the concrete name ct_to_1_2 resolved from the empty
cache. -/
theorem C1_witness :
    ∃ s st₁,
      get_normalization_scheme "ct_to_1_2" ⟨[], 0⟩ = (Except.ok s, st₁) ∧
      get_normalization_scheme "ct_to_1_2" st₁ = (Except.ok s, st₁) ∧
      List.lookup (class_name 1 2) st₁.cache = some s ∧
      (st₁.cache.map Prod.fst).Nodup :=
  C1_resolve_twice_reference_stable "ct_to_1_2" ⟨[], 0⟩ 1 2 (by decide)
    (by decide) (by simp)

/-- C2: for every pair (lower, upper) with lower ≥ upper, resolving a name
whose case-folded form matches ct_to_{lower}_{upper} raises a ValueError
whose message states both offending bounds, and no strategy type is
returned. -/
theorem C2_invalid_bounds_valueerror
    (name : String) (st : ResolverState) (lower upper : Int)
    (hm : matchCtWindow (casefold name) = some (lower, upper))
    (hge : lower ≥ upper) :
    get_normalization_scheme name st =
      (Except.error ("Invalid CT window: lower bound (" ++ intRepr lower ++
        ") greater than or equal to upper bound (" ++ intRepr upper ++ ")"), st) :=
  resolve_ctwindow_invalid hm hge

/-- Witness for C2: the concrete name ct_to_5_5 fails with the ValueError
message naming both bounds. -/
theorem C2_witness :
    get_normalization_scheme "ct_to_5_5" ⟨[], 0⟩ =
      (Except.error ("Invalid CT window: lower bound (" ++ intRepr 5 ++
        ") greater than or equal to upper bound (" ++ intRepr 5 ++ ")"), ⟨[], 0⟩) :=
  C2_invalid_bounds_valueerror "ct_to_5_5" ⟨[], 0⟩ 5 5 (by decide) (by decide)

/-- C3: with non-null intensity properties, the run method of each fixed
CT-window strategy maps every element v to
(clip(v, lower, upper) - mean) / max(std, 1e-8): clipping happens before
centering and scaling. -/
theorem C3_run_formula (cfg : NormCfg) (img : NDArray) (p : IntensityProps)
    (h : cfg.intensityproperties = some p) :
    (∃ out, (CTWindowNeg15To115Normalization.run cfg img).ret = Except.ok out ∧
      out.data = img.data.map (fun v =>
        (min (max v (-15)) 115 - p.mean) / effectiveDivisor p.std)) ∧
    (∃ out, (CTWindowNeg100To200Normalization.run cfg img).ret = Except.ok out ∧
      out.data = img.data.map (fun v =>
        (min (max v (-100)) 200 - p.mean) / effectiveDivisor p.std)) := by
  constructor
  · unfold CTWindowNeg15To115Normalization.run
    rw [h]
    by_cases hdt : img.dtype = cfg.target_dtype <;> simp [hdt]
  · unfold CTWindowNeg100To200Normalization.run
    rw [h]
    by_cases hdt : img.dtype = cfg.target_dtype <;> simp [hdt]

/-- Witness for C3: with mean 100 and std 50 the -15..115 window maps 500
to (115-100)/50 = 0.3, and the -100..200 window maps -1000 to
(-100-100)/50 = -4. -/
theorem C3_witness :
    (∃ out, (CTWindowNeg15To115Normalization.run ⟨some ⟨100, 50⟩, "float32"⟩
        ⟨0, "float32", [500]⟩).ret = Except.ok out ∧
      out.data = [(3 : ℚ) / 10]) ∧
    (∃ out, (CTWindowNeg100To200Normalization.run ⟨some ⟨100, 50⟩, "float32"⟩
        ⟨1, "float32", [-1000]⟩).ret = Except.ok out ∧
      out.data = [(-4 : ℚ)]) := by
  constructor
  · obtain ⟨⟨out, hret, hdata⟩, -⟩ :=
      C3_run_formula ⟨some ⟨100, 50⟩, "float32"⟩ ⟨0, "float32", [500]⟩
        ⟨100, 50⟩ rfl
    refine ⟨out, hret, ?_⟩
    rw [hdata]
    norm_num [effectiveDivisor, eps]
  · obtain ⟨-, ⟨out, hret, hdata⟩⟩ :=
      C3_run_formula ⟨some ⟨100, 50⟩, "float32"⟩ ⟨1, "float32", [-1000]⟩
        ⟨100, 50⟩ rfl
    refine ⟨out, hret, ?_⟩
    rw [hdata]
    norm_num [effectiveDivisor, eps]

/-- C4: any channel name whose case-folded form is found in the static
table resolves to the statically mapped strategy immediately (state
untouched), and the five fixed keys map to their respective strategies;
this tier runs before the dynamic pattern tier and the fallback. -/
theorem C4_static_table_precedence (name : String) (st : ResolverState)
    (s : NormScheme)
    (h : channel_name_to_normalization_mapping (casefold name) = some s) :
    get_normalization_scheme name st = (Except.ok s, st) ∧
    channel_name_to_normalization_mapping "ct" = some NormScheme.CTNormalization ∧
    channel_name_to_normalization_mapping "nonorm" = some NormScheme.NoNormalization ∧
    channel_name_to_normalization_mapping "zscore" = some NormScheme.ZScoreNormalization ∧
    channel_name_to_normalization_mapping "rescale_to_0_1" =
      some NormScheme.RescaleTo01Normalization ∧
    channel_name_to_normalization_mapping "rgb_to_0_1" =
      some NormScheme.RGBTo01Normalization := by
  refine ⟨?_, by decide, by decide, by decide, by decide, by decide⟩
  unfold get_normalization_scheme
  rw [h]

/-- Witness for C4: the upper-case name CT resolves to CTNormalization. -/
theorem C4_witness :
    get_normalization_scheme "CT" ⟨[], 0⟩ =
      (Except.ok NormScheme.CTNormalization, ⟨[], 0⟩) ∧
    channel_name_to_normalization_mapping "ct" = some NormScheme.CTNormalization ∧
    channel_name_to_normalization_mapping "nonorm" = some NormScheme.NoNormalization ∧
    channel_name_to_normalization_mapping "zscore" = some NormScheme.ZScoreNormalization ∧
    channel_name_to_normalization_mapping "rescale_to_0_1" =
      some NormScheme.RescaleTo01Normalization ∧
    channel_name_to_normalization_mapping "rgb_to_0_1" =
      some NormScheme.RGBTo01Normalization :=
  C4_static_table_precedence "CT" ⟨[], 0⟩ NormScheme.CTNormalization (by decide)

/-- C5: a channel name whose case-folded form is neither a static table
key nor a full match of the ct_to pattern resolves to the default
ZScoreNormalization without raising and without touching the state. -/
theorem C5_fallback_zscore (name : String) (st : ResolverState)
    (h1 : channel_name_to_normalization_mapping (casefold name) = none)
    (h2 : matchCtWindow (casefold name) = none) :
    get_normalization_scheme name st =
      (Except.ok NormScheme.ZScoreNormalization, st) := by
  unfold get_normalization_scheme
  rw [h1, h2]

/-- Witness for C5: the unrecognized name MRI falls back to z-score. -/
theorem C5_witness :
    get_normalization_scheme "MRI" ⟨[], 0⟩ =
      (Except.ok NormScheme.ZScoreNormalization, ⟨[], 0⟩) :=
  C5_fallback_zscore "MRI" ⟨[], 0⟩ (by decide) (by decide)

/-- C6: every statistics-dependent CT-window run (both fixed-bound
variants and the synthesized variant for any bounds) fails on null
intensityproperties with an assertion message naming which normalization
requires intensity properties, and the caller's array is not mutated. -/
theorem C6_missing_props_error (cfg : NormCfg) (img : NDArray)
    (h : cfg.intensityproperties = none) :
    CTWindowNeg15To115Normalization.run cfg img =
      ⟨Except.error "CTNormalization requires intensity properties", img⟩ ∧
    CTWindowNeg100To200Normalization.run cfg img =
      ⟨Except.error "CTNormalization requires intensity properties", img⟩ ∧
    ∀ lower upper : ℚ, dynamic_run lower upper cfg img =
      ⟨Except.error "Custom range CT normalization requires intensity properties",
        img⟩ := by
  refine ⟨?_, ?_, fun lower upper => ?_⟩
  · unfold CTWindowNeg15To115Normalization.run
    rw [h]
  · unfold CTWindowNeg100To200Normalization.run
    rw [h]
  · unfold dynamic_run
    rw [h]

/-- Witness for C6 at a concrete configuration with absent intensity
properties. -/
theorem C6_witness :
    CTWindowNeg15To115Normalization.run ⟨none, "float32"⟩ ⟨0, "float32", [1]⟩ =
      ⟨Except.error "CTNormalization requires intensity properties",
        ⟨0, "float32", [1]⟩⟩ ∧
    CTWindowNeg100To200Normalization.run ⟨none, "float32"⟩ ⟨0, "float32", [1]⟩ =
      ⟨Except.error "CTNormalization requires intensity properties",
        ⟨0, "float32", [1]⟩⟩ ∧
    ∀ lower upper : ℚ,
      dynamic_run lower upper ⟨none, "float32"⟩ ⟨0, "float32", [1]⟩ =
        ⟨Except.error "Custom range CT normalization requires intensity properties",
          ⟨0, "float32", [1]⟩⟩ :=
  C6_missing_props_error ⟨none, "float32"⟩ ⟨0, "float32", [1]⟩ rfl

/-- C7: with non-null intensity properties no CT-window run divides by
zero: the effective divisor max(std, 1e-8) is strictly positive for every
std, and every variant returns an array. -/
theorem C7_divisor_positive (cfg : NormCfg) (img : NDArray) (p : IntensityProps)
    (h : cfg.intensityproperties = some p) :
    0 < effectiveDivisor p.std ∧
    (∃ out, (CTWindowNeg15To115Normalization.run cfg img).ret = Except.ok out) ∧
    (∃ out, (CTWindowNeg100To200Normalization.run cfg img).ret = Except.ok out) ∧
    ∀ lower upper : ℚ, ∃ out,
      (dynamic_run lower upper cfg img).ret = Except.ok out := by
  refine ⟨lt_of_lt_of_le (by norm_num [eps]) (le_max_right p.std eps),
    ?_, ?_, fun lower upper => ?_⟩
  · unfold CTWindowNeg15To115Normalization.run
    rw [h]
    by_cases hdt : img.dtype = cfg.target_dtype <;> simp [hdt]
  · unfold CTWindowNeg100To200Normalization.run
    rw [h]
    by_cases hdt : img.dtype = cfg.target_dtype <;> simp [hdt]
  · unfold dynamic_run
    rw [h]
    simp

/-- Witness for C7: std = 0 does not raise; the divisor is clamped. -/
theorem C7_witness :
    0 < effectiveDivisor (0 : ℚ) ∧
    (∃ out, (CTWindowNeg15To115Normalization.run ⟨some ⟨100, 0⟩, "float32"⟩
      ⟨0, "float32", [1]⟩).ret = Except.ok out) ∧
    (∃ out, (CTWindowNeg100To200Normalization.run ⟨some ⟨100, 0⟩, "float32"⟩
      ⟨0, "float32", [1]⟩).ret = Except.ok out) ∧
    ∀ lower upper : ℚ, ∃ out,
      (dynamic_run lower upper ⟨some ⟨100, 0⟩, "float32"⟩
        ⟨0, "float32", [1]⟩).ret = Except.ok out :=
  C7_divisor_positive ⟨some ⟨100, 0⟩, "float32"⟩ ⟨0, "float32", [1]⟩ ⟨100, 0⟩ rfl

/-- C8: with matching dtype the fixed-bound variants normalize in place
(the returned array is the same object as the input and the caller's
buffer holds the normalized values), whereas the synthesized variant
clips by copy: the caller's array is unchanged and the returned array is
a distinct object. -/
theorem C8_inplace_vs_copy (cfg : NormCfg) (img : NDArray) (p : IntensityProps)
    (h : cfg.intensityproperties = some p) :
    (img.dtype = cfg.target_dtype →
      (∃ out, (CTWindowNeg15To115Normalization.run cfg img).ret = Except.ok out ∧
        out.id = img.id ∧
        (CTWindowNeg15To115Normalization.run cfg img).callerArray = out ∧
        out.data = img.data.map (fun v =>
          (min (max v (-15)) 115 - p.mean) / effectiveDivisor p.std)) ∧
      (∃ out, (CTWindowNeg100To200Normalization.run cfg img).ret = Except.ok out ∧
        out.id = img.id ∧
        (CTWindowNeg100To200Normalization.run cfg img).callerArray = out ∧
        out.data = img.data.map (fun v =>
          (min (max v (-100)) 200 - p.mean) / effectiveDivisor p.std))) ∧
    ∀ lower upper : ℚ, ∃ out,
      (dynamic_run lower upper cfg img).ret = Except.ok out ∧
      out.id ≠ img.id ∧
      (dynamic_run lower upper cfg img).callerArray = img := by
  constructor
  · intro hdt
    constructor
    · unfold CTWindowNeg15To115Normalization.run
      rw [h]
      simp [hdt]
    · unfold CTWindowNeg100To200Normalization.run
      rw [h]
      simp [hdt]
  · intro lower upper
    unfold dynamic_run
    rw [h]
    simp

/-- Witness for C8 at a concrete image whose dtype matches the target
dtype. -/
theorem C8_witness :
    ((⟨0, "float32", [500]⟩ : NDArray).dtype = ("float32" : String)) ∧
    ((∃ out, (CTWindowNeg15To115Normalization.run ⟨some ⟨100, 50⟩, "float32"⟩
        ⟨0, "float32", [500]⟩).ret = Except.ok out ∧
      out.id = (⟨0, "float32", [500]⟩ : NDArray).id ∧
      (CTWindowNeg15To115Normalization.run ⟨some ⟨100, 50⟩, "float32"⟩
        ⟨0, "float32", [500]⟩).callerArray = out ∧
      out.data = [(500 : ℚ)].map (fun v =>
        (min (max v (-15)) 115 - 100) / effectiveDivisor 50)) ∧
    (∃ out, (CTWindowNeg100To200Normalization.run ⟨some ⟨100, 50⟩, "float32"⟩
        ⟨0, "float32", [500]⟩).ret = Except.ok out ∧
      out.id = (⟨0, "float32", [500]⟩ : NDArray).id ∧
      (CTWindowNeg100To200Normalization.run ⟨some ⟨100, 50⟩, "float32"⟩
        ⟨0, "float32", [500]⟩).callerArray = out ∧
      out.data = [(500 : ℚ)].map (fun v =>
        (min (max v (-100)) 200 - 100) / effectiveDivisor 50))) ∧
    ∀ lower upper : ℚ, ∃ out,
      (dynamic_run lower upper ⟨some ⟨100, 50⟩, "float32"⟩
        ⟨0, "float32", [500]⟩).ret = Except.ok out ∧
      out.id ≠ (⟨0, "float32", [500]⟩ : NDArray).id ∧
      (dynamic_run lower upper ⟨some ⟨100, 50⟩, "float32"⟩
        ⟨0, "float32", [500]⟩).callerArray = ⟨0, "float32", [500]⟩ := by
  have hmain := C8_inplace_vs_copy ⟨some ⟨100, 50⟩, "float32"⟩
    ⟨0, "float32", [500]⟩ ⟨100, 50⟩ rfl
  exact ⟨rfl, hmain.1 rfl, hmain.2⟩

/-- C9: the canonical class-name encoding is injective over integer bound
pairs, so a cache key determines its bounds; consequently, starting from
any well-formed cache, resolving a ct_to name with valid bounds returns a
synthesized strategy carrying exactly the requested bounds, and the cache
stays well-formed. -/
theorem C9_class_name_injective_bounds_exact :
    (∀ l1 u1 l2 u2 : Int,
      class_name l1 u1 = class_name l2 u2 → l1 = l2 ∧ u1 = u2) ∧
    (∀ (name : String) (st : ResolverState) (lower upper : Int),
      cacheWF st →
      matchCtWindow (casefold name) = some (lower, upper) →
      lower < upper →
      ∃ s st₁ stamp,
        get_normalization_scheme name st = (Except.ok s, st₁) ∧
        s = NormScheme.dynamic stamp lower upper ∧
        cacheWF st₁) := by
  refine ⟨fun l1 u1 l2 u2 h => class_name_inj h, ?_⟩
  intro name st lower upper hwf hm hlt
  cases hc : List.lookup (class_name lower upper) st.cache with
  | some cached =>
    obtain ⟨stamp, l0, u0, hdyn, hkey, -⟩ := hwf _ _ (lookup_some_mem hc)
    obtain ⟨hl, hu⟩ := class_name_inj hkey
    refine ⟨cached, st, stamp, resolve_ctwindow_cached hm hlt hc, ?_, hwf⟩
    rw [hdyn, hl, hu]
  | none =>
    refine ⟨NormScheme.dynamic st.nextStamp lower upper,
      ⟨(class_name lower upper,
        NormScheme.dynamic st.nextStamp lower upper) :: st.cache,
       st.nextStamp + 1⟩,
      st.nextStamp, resolve_ctwindow_fresh hm hlt hc, rfl, ?_⟩
    intro k s hmem
    rcases List.mem_cons.mp hmem with heq | hold
    · rw [Prod.mk.injEq] at heq
      exact ⟨st.nextStamp, lower, upper, heq.2, heq.1, hlt⟩
    · exact hwf k s hold

/-- Witness for C9: the resolver applied to the concrete name ct_to_-3_4
on an empty (hence well-formed) cache. -/
theorem C9_witness :
    ∃ s st₁ stamp,
      get_normalization_scheme "ct_to_-3_4" ⟨[], 5⟩ = (Except.ok s, st₁) ∧
      s = NormScheme.dynamic stamp (-3) 4 ∧
      cacheWF st₁ :=
  C9_class_name_injective_bounds_exact.2 "ct_to_-3_4" ⟨[], 5⟩ (-3) 4
    (by intro k s hmem; simp at hmem) (by decide) (by decide)

/-- C10: when the resolver raises the ValueError for invalid bounds, the
dynamic-scheme cache (and the whole module state) is left unchanged: the
bounds check precedes any cache lookup or insertion. -/
theorem C10_error_cache_unchanged
    (name : String) (st : ResolverState) (lower upper : Int)
    (hm : matchCtWindow (casefold name) = some (lower, upper))
    (hge : lower ≥ upper) :
    (get_normalization_scheme name st).2 = st ∧
    (get_normalization_scheme name st).1 =
      Except.error ("Invalid CT window: lower bound (" ++ intRepr lower ++
        ") greater than or equal to upper bound (" ++ intRepr upper ++ ")") := by
  rw [resolve_ctwindow_invalid hm hge]
  exact ⟨rfl, rfl⟩

/-- Witness for C10: resolving CT_to_7_-2 with a non-empty cache raises
and leaves the state untouched. -/
theorem C10_witness :
    (get_normalization_scheme "CT_to_7_-2"
      ⟨[("k", NormScheme.NoNormalization)], 3⟩).2 =
      ⟨[("k", NormScheme.NoNormalization)], 3⟩ ∧
    (get_normalization_scheme "CT_to_7_-2"
      ⟨[("k", NormScheme.NoNormalization)], 3⟩).1 =
      Except.error ("Invalid CT window: lower bound (" ++ intRepr 7 ++
        ") greater than or equal to upper bound (" ++ intRepr (-2) ++ ")") :=
  C10_error_cache_unchanged "CT_to_7_-2" ⟨[("k", NormScheme.NoNormalization)], 3⟩
    7 (-2) (by decide) (by decide)

end NNUNet
